import Mathlib

/-
Verification of the MLB win-probability engine (win_probability.py).

The source is a pure numerical model over Python ints and floats.  We embed it
shallowly over ℤ and ℚ.  The four transcendental routines the source calls
(numpy.exp, numpy.log, numpy.sqrt and scipy.stats.norm.cdf) have irrational
values, so the embedding is parameterised by a bundle `Numerics` of
rational-valued stand-ins for them; theorems that depend on actual values of
these functions take numeric-bound hypotheses that are true facts about the
genuine real functions (each such bound is justified in a comment where it is
stated).  scipy.stats.poisson.cdf is expanded to its defining finite sum, which
is exact given `exp`.  Theorems that do not depend on the values (clamping,
branch structure, monotonicity of the rational arithmetic) quantify over an
arbitrary bundle.
-/

/-- Rational-valued stand-ins for the transcendental library routines used by
the source: numpy.exp, numpy.log, numpy.sqrt, and scipy.stats.norm.cdf. -/
structure Numerics where
  exp : ℚ → ℚ
  log : ℚ → ℚ
  sqrt : ℚ → ℚ
  ncdf : ℚ → ℚ

/-- Half of an inning: the source represents this as the string "top" or
"bottom" and branches on equality with "top". -/
inductive Half where
  | top : Half
  | bottom : Half
deriving DecidableEq, Repr

/-- Plate-appearance outcome vocabulary of `_apply_outcome` (the source uses
string tags; the vocabulary is closed). -/
inductive Outcome where
  | strikeout : Outcome
  | groundout : Outcome
  | flyout : Outcome
  | single : Outcome
  | walk : Outcome
  | double : Outcome
  | home_run : Outcome
  | double_play : Outcome
  | other_out : Outcome
deriving DecidableEq, Repr

/-- Keys of the TACTICS dict (a closed set of eight). -/
inductive TacticKey where
  | sacrifice_bunt : TacticKey
  | steal_2b : TacticKey
  | steal_3b : TacticKey
  | intentional_walk : TacticKey
  | pitching_change : TacticKey
  | pinch_hitter : TacticKey
  | hit_and_run : TacticKey
  | squeeze_play : TacticKey
deriving DecidableEq, Repr

/-- RE24 table: (runner1, runner2, runner3, outs) -> expected runs,
MLB 2010-2019 average values, transcribed from the source dict. -/
def RE24_MLB (key : ℤ × ℤ × ℤ × ℤ) : Option ℚ :=
  if key = (0, 0, 0, 0) then some 0.481
  else if key = (1, 0, 0, 0) then some 0.859
  else if key = (0, 1, 0, 0) then some 1.100
  else if key = (1, 1, 0, 0) then some 1.437
  else if key = (0, 0, 1, 0) then some 1.350
  else if key = (1, 0, 1, 0) then some 1.784
  else if key = (0, 1, 1, 0) then some 1.964
  else if key = (1, 1, 1, 0) then some 2.292
  else if key = (0, 0, 0, 1) then some 0.254
  else if key = (1, 0, 0, 1) then some 0.509
  else if key = (0, 1, 0, 1) then some 0.664
  else if key = (1, 1, 0, 1) then some 0.884
  else if key = (0, 0, 1, 1) then some 0.950
  else if key = (1, 0, 1, 1) then some 1.130
  else if key = (0, 1, 1, 1) then some 1.376
  else if key = (1, 1, 1, 1) then some 1.541
  else if key = (0, 0, 0, 2) then some 0.098
  else if key = (1, 0, 0, 2) then some 0.224
  else if key = (0, 1, 0, 2) then some 0.319
  else if key = (1, 1, 0, 2) then some 0.429
  else if key = (0, 0, 1, 2) then some 0.353
  else if key = (1, 0, 1, 2) then some 0.478
  else if key = (0, 1, 1, 2) then some 0.580
  else if key = (1, 1, 1, 2) then some 0.752
  else none

/-- MLB average runs per game (per team). -/
def MLB_RPG : ℚ := 4.5

/-- NPB average runs per game (per team). -/
def NPB_RPG : ℚ := 4.0

/-- Run Expectancy for a base-out state, scaled by scoring environment.
Source: `RE24_MLB.get(key, 0.0)` followed by `base * (runs_per_game / MLB_RPG)`;
the dict `.get` default (0.0 for a key outside the table) is `Option.getD 0`. -/
def get_re24 (runners : ℤ × ℤ × ℤ) (outs : ℤ) (runs_per_game : ℚ) : ℚ :=
  let base := (RE24_MLB (runners.1, runners.2.1, runners.2.2, outs)).getD 0
  base * (runs_per_game / MLB_RPG)

/-- Python's round-half-to-even on a rational (the rounding mode of the
built-in `round`). -/
def roundHalfEven (q : ℚ) : ℤ :=
  let f := ⌊q⌋
  let r := q - f
  if r < 1/2 then f
  else if 1/2 < r then f + 1
  else if f % 2 = 0 then f else f + 1

/-- Python's `round(q, n)` modelled exactly over ℚ. -/
def roundTo (n : ℕ) (q : ℚ) : ℚ :=
  (roundHalfEven (q * 10 ^ n) : ℚ) / 10 ^ n

/-- Remaining half-innings for the home team to score (source helper; the
source computes it in `calculate_wp` but never uses the result). -/
def _remaining_innings (inning : ℤ) (top_bottom : Half) : ℚ :=
  if top_bottom = Half.top then
    max ((9 - inning + 1 : ℤ) : ℚ) 0.5
  else
    max ((9 - inning : ℤ) : ℚ) 0.5

/-- Poisson CDF P(X ≤ k) for X ~ Poisson(lam), as computed by
scipy.stats.poisson.cdf: e^(-lam) * Σ_{i=0..k} lam^i / i!, and 0 for k < 0. -/
def poissonCdf (A : Numerics) (k : ℤ) (lam : ℚ) : ℚ :=
  if k < 0 then 0
  else A.exp (-lam) * (Finset.range (k.toNat + 1)).sum (fun i => lam ^ i / (Nat.factorial i : ℚ))

/-- Win Probability for the home team (source: `calculate_wp`).  The dead
assignments of the source (`remaining = _remaining_innings(...)`, and
`p_tie = poisson.pmf(needed, lam) * 0.0`, which is never read) are omitted. -/
def calculate_wp (A : Numerics) (inning : ℤ) (top_bottom : Half) (outs : ℤ)
    (runners : ℤ × ℤ × ℤ) (score_diff : ℤ) (runs_per_game : ℚ) : ℚ :=
  let re := get_re24 runners outs runs_per_game
  let rpg := runs_per_game
  let away_extra := if top_bottom = Half.top then re else 0
  let home_extra := if top_bottom = Half.top then (0 : ℚ) else re
  let runs_per_half := rpg / 18
  let variance_factor : ℚ := 1.3
  let away_remaining_halves : ℤ := if top_bottom = Half.top then max (9 - inning) 0 else max (9 - inning) 0
  let home_remaining_halves : ℤ := if top_bottom = Half.top then max (9 - inning + 1) 1 else max (9 - inning) 0
  let home_mean := (score_diff : ℚ) + home_extra - away_extra
    + ((home_remaining_halves - away_remaining_halves : ℤ) : ℚ) * runs_per_half
  let home_std := A.sqrt (((home_remaining_halves + away_remaining_halves : ℤ) : ℚ) * runs_per_half * variance_factor + 0.01)
  if 9 ≤ inning ∧ top_bottom = Half.bottom then
    if 0 < score_diff then 0.99
    else if score_diff = 0 then
      let scoring_factor : ℚ := 1.8
      let p_score_1 := 1 - A.exp (-(re * scoring_factor))
      let p_extras_win : ℚ := 0.50
      let wp := p_score_1 + (1 - p_score_1) * p_extras_win
      min 0.99 (max 0.01 wp)
    else
      let needed : ℤ := |score_diff|
      let lam := re * 1.5
      let p_enough := 1 - poissonCdf A (needed - 1) lam
      min 0.99 (max 0.01 p_enough)
  else if 9 ≤ inning ∧ top_bottom = Half.top ∧ 0 < score_diff then
    let lam := re * 1.3
    let p_tie_or_lead := 1 - poissonCdf A (score_diff - 1) lam
    let p_lead := 1 - poissonCdf A score_diff lam
    let p_home_loses := p_lead + (p_tie_or_lead - p_lead) * 0.45
    min 0.99 (max 0.01 (1 - p_home_loses))
  else
    let wp := A.ncdf (home_mean / max home_std 0.1)
    min 0.99 (max 0.01 wp)

/-- Representative plate-appearance outcomes with their probabilities, in the
source dict's insertion order. -/
def OUTCOME_PROBS : List (Outcome × ℚ) :=
  [(Outcome.strikeout, 0.22),
   (Outcome.groundout, 0.20),
   (Outcome.flyout, 0.12),
   (Outcome.single, 0.16),
   (Outcome.walk, 0.09),
   (Outcome.double, 0.05),
   (Outcome.home_run, 0.03),
   (Outcome.double_play, 0.03),
   (Outcome.other_out, 0.10)]

/-- Average WP swing per PA across all situations (empirical baseline). -/
def LEAGUE_AVG_WP_SWING : ℚ := 0.035

/-- Apply a plate appearance outcome to a base-out state; returns
(new_runners, new_outs, runs_scored).  Python truthiness tests on runner flags
(`if r3 and outs < 2`, `if r1 and r2 and r3`, ...) are embedded as `≠ 0`. -/
def _apply_outcome (runners : ℤ × ℤ × ℤ) (outs : ℤ) (outcome : Outcome) :
    (ℤ × ℤ × ℤ) × ℤ × ℤ :=
  let r1 := runners.1
  let r2 := runners.2.1
  let r3 := runners.2.2
  match outcome with
  | Outcome.strikeout => ((r1, r2, r3), min (outs + 1) 3, 0)
  | Outcome.groundout => ((0, r2, r3), min (outs + 1) 3, 0)
  | Outcome.flyout =>
    if r3 ≠ 0 ∧ outs < 2 then ((r1, r2, 0), min (outs + 1) 3, 1)
    else ((r1, r2, r3), min (outs + 1) 3, 0)
  | Outcome.other_out => ((r1, r2, r3), min (outs + 1) 3, 0)
  | Outcome.single => ((1, r1, r2), outs, r3)
  | Outcome.walk =>
    if r1 ≠ 0 ∧ r2 ≠ 0 ∧ r3 ≠ 0 then ((1, 1, 1), outs, 1)
    else if r1 ≠ 0 ∧ r2 ≠ 0 then ((1, 1, 1), outs, 0)
    else if r1 ≠ 0 then ((1, 1, r3), outs, 0)
    else ((1, r2, r3), outs, 0)
  | Outcome.double => ((0, 1, r1), outs, r2 + r3)
  | Outcome.home_run => ((0, 0, 0), outs, 1 + r1 + r2 + r3)
  | Outcome.double_play =>
    if r1 ≠ 0 ∧ outs < 2 then ((0, r2, r3), min (outs + 2) 3, 0)
    else ((r1, r2, r3), min (outs + 1) 3, 0)

/-- Leverage Index for the current situation (source: `calculate_li`). -/
def calculate_li (A : Numerics) (inning : ℤ) (top_bottom : Half) (outs : ℤ)
    (runners : ℤ × ℤ × ℤ) (score_diff : ℤ) (runs_per_game : ℚ) : ℚ :=
  let base_wp := calculate_wp A inning top_bottom outs runners score_diff runs_per_game
  let total_wp_swing := OUTCOME_PROBS.foldl (fun acc op =>
    let res := _apply_outcome runners outs op.1
    let new_runners := res.1
    let new_outs := res.2.1
    let runs := res.2.2
    let new_wp :=
      if 3 ≤ new_outs then
        if top_bottom = Half.top then
          calculate_wp A inning Half.bottom 0 (0, 0, 0) (score_diff - runs) runs_per_game
        else
          calculate_wp A (inning + 1) Half.top 0 (0, 0, 0) (score_diff + runs) runs_per_game
      else
        if top_bottom = Half.top then
          calculate_wp A inning top_bottom new_outs new_runners (score_diff - runs) runs_per_game
        else
          calculate_wp A inning top_bottom new_outs new_runners (score_diff + runs) runs_per_game
    acc + op.2 * |new_wp - base_wp|) 0
  roundTo 2 (total_wp_swing / LEAGUE_AVG_WP_SWING)

/-- Human-readable label for Leverage Index. -/
def li_label (li : ℚ) : String :=
  if li < 0.5 then ("Low")
  else if li < 1.5 then ("Medium")
  else if li < 3.0 then ("High")
  else ("Very High")

/-- One tactic definition of the TACTICS dict: display names, optional
empirical success probability, and applicability predicates.  A key absent
from a source dict entry is `false` / `none` here. -/
structure TacticDef where
  name : String
  name_ja : String
  success_rate : Option ℚ := none
  requires_runner_1b : Bool := false
  requires_runner_2b : Bool := false
  requires_runner_3b : Bool := false
  requires_open_1b : Bool := false
  max_outs : Option ℤ := none
deriving DecidableEq, Repr

/-- TACTICS dict, in source insertion order. -/
def TACTICS : List (TacticKey × TacticDef) :=
  [(TacticKey.sacrifice_bunt,
    { name := ("Sacrifice Bunt"), name_ja := ("送りバント"),
      success_rate := some 0.80, requires_runner_1b := true, max_outs := some 1 }),
   (TacticKey.steal_2b,
    { name := ("Steal 2nd Base"), name_ja := ("盗塁（二塁）"),
      success_rate := some 0.72, requires_runner_1b := true }),
   (TacticKey.steal_3b,
    { name := ("Steal 3rd Base"), name_ja := ("盗塁（三塁）"),
      success_rate := some 0.65, requires_runner_2b := true }),
   (TacticKey.intentional_walk,
    { name := ("Intentional Walk"), name_ja := ("敬遠"), requires_open_1b := true }),
   (TacticKey.pitching_change,
    { name := ("Pitching Change"), name_ja := ("継投") }),
   (TacticKey.pinch_hitter,
    { name := ("Pinch Hitter"), name_ja := ("代打") }),
   (TacticKey.hit_and_run,
    { name := ("Hit and Run"), name_ja := ("エンドラン"),
      success_rate := some 0.55, requires_runner_1b := true }),
   (TacticKey.squeeze_play,
    { name := ("Squeeze Play"), name_ja := ("スクイズ"),
      success_rate := some 0.60, requires_runner_3b := true, max_outs := some 1 })]

/-- One recommendation record produced by `_evaluate_tactic` (a Python dict in
the source; the two optional dict keys become Option fields).  The numeric
interpolation inside the source's reason string (`f"... (LI={li:.1f})"`) is
display-only formatting and is not modelled. -/
structure Recommendation where
  tactic : String
  tactic_ja : String
  re24_delta : ℚ
  recommendation : String
  success_rate : Option ℚ := none
  reason : Option String := none
deriving DecidableEq, Repr

/-- Python `a or b` on runner flags: the first operand if truthy, else the
second. -/
def pyOr (a b : ℤ) : ℤ := if a ≠ 0 then a else b

/-- Shared tail of `_evaluate_tactic` for the RE-based tactics: the three-way
classification of the RE24 delta and the returned record. -/
def buildRec (tactic : TacticDef) (delta : ℚ) : Recommendation :=
  { tactic := tactic.name
    tactic_ja := tactic.name_ja
    re24_delta := roundTo 3 delta
    recommendation :=
      if 0.02 < delta then ("Recommended")
      else if -0.02 < delta then ("Neutral")
      else ("Not recommended")
    success_rate := tactic.success_rate
    reason := none }

/-- Evaluate a single tactic; `none` when inapplicable (source:
`_evaluate_tactic`).  Dict-key membership tests (`"max_outs" in tactic`) are
Option-presence tests here; `tactic.get("success_rate")` is always populated on
the arithmetic branches that read it, embedded as `.getD 0`. -/
def _evaluate_tactic (A : Numerics) (tactic_key : TacticKey) (tactic : TacticDef)
    (runners : ℤ × ℤ × ℤ) (outs : ℤ) (score_diff : ℤ) (inning : ℤ)
    (top_bottom : Half) (runs_per_game : ℚ) : Option Recommendation :=
  let r1 := runners.1
  let r2 := runners.2.1
  let r3 := runners.2.2
  if tactic.requires_runner_1b ∧ r1 = 0 then none
  else if tactic.requires_runner_2b ∧ r2 = 0 then none
  else if tactic.requires_runner_3b ∧ r3 = 0 then none
  else if tactic.requires_open_1b ∧ r1 ≠ 0 then none
  else if tactic.max_outs.elim false (fun m => decide (m < outs)) then none
  else
    let current_re := get_re24 runners outs runs_per_game
    let success_rate := tactic.success_rate.getD 0
    match tactic_key with
    | TacticKey.sacrifice_bunt =>
      let new_runners_s := ((0 : ℤ), pyOr r2 r1, pyOr r3 (if r1 ≠ 0 then r2 else 0))
      let runs_s : ℚ := if r3 ≠ 0 ∧ r1 ≠ 0 then 1 else 0
      let re_success := get_re24 new_runners_s (outs + 1) runs_per_game + runs_s
      let re_fail := get_re24 runners (outs + 1) runs_per_game
      let ev := success_rate * re_success + (1 - success_rate) * re_fail
      some (buildRec tactic (ev - current_re))
    | TacticKey.steal_2b =>
      let new_runners_s := ((0 : ℤ), (1 : ℤ), r3)
      let re_success := get_re24 new_runners_s outs runs_per_game
      let re_fail := get_re24 (0, r2, r3) (outs + 1) runs_per_game
      let ev := success_rate * re_success + (1 - success_rate) * re_fail
      some (buildRec tactic (ev - current_re))
    | TacticKey.steal_3b =>
      let new_runners_s := (r1, (0 : ℤ), (1 : ℤ))
      let re_success := get_re24 new_runners_s outs runs_per_game
      let re_fail := get_re24 (r1, 0, r3) (outs + 1) runs_per_game
      let ev := success_rate * re_success + (1 - success_rate) * re_fail
      some (buildRec tactic (ev - current_re))
    | TacticKey.intentional_walk =>
      let new_runners := ((1 : ℤ), r2, r3)
      let re_after := get_re24 new_runners outs runs_per_game
      some (buildRec tactic (-(re_after - current_re)))
    | TacticKey.hit_and_run =>
      let re_success := get_re24 (1, 0, if r1 ≠ 0 then 1 else r3) outs runs_per_game
        + (if r3 ≠ 0 then 1 else 0)
      let re_fail := get_re24 (0, r2, r3) (outs + 1) runs_per_game
      let ev := success_rate * re_success + (1 - success_rate) * re_fail
      some (buildRec tactic (ev - current_re))
    | TacticKey.squeeze_play =>
      let re_success := get_re24 ((if r1 = 0 then r1 else 0), r2, 0) (outs + 1) runs_per_game + 1
      let re_fail := get_re24 (r1, r2, 0) (outs + 1) runs_per_game
      let ev := success_rate * re_success + (1 - success_rate) * re_fail
      some (buildRec tactic (ev - current_re))
    | TacticKey.pitching_change =>
      let li := calculate_li A inning top_bottom outs runners score_diff runs_per_game
      if li < 1.5 then none
      else some { tactic := tactic.name, tactic_ja := tactic.name_ja,
                  re24_delta := 0.0, recommendation := ("Consider"),
                  reason := some ("High leverage situation") }
    | TacticKey.pinch_hitter =>
      let li := calculate_li A inning top_bottom outs runners score_diff runs_per_game
      if li < 1.5 then none
      else some { tactic := tactic.name, tactic_ja := tactic.name_ja,
                  re24_delta := 0.0, recommendation := ("Consider"),
                  reason := some ("High leverage situation") }

/-- Sort key of the source: `(order.get(recommendation, 9), -re24_delta)`. -/
def recSortKey (x : Recommendation) : ℤ × ℚ :=
  ((if x.recommendation = ("Recommended") then 0
    else if x.recommendation = ("Consider") then 1
    else if x.recommendation = ("Neutral") then 2
    else if x.recommendation = ("Not recommended") then 3
    else 9), -x.re24_delta)

/-- Lexicographic comparison on the sort key (Python's stable ascending sort
by key tuple is a stable merge sort under this relation). -/
def recLE (a b : Recommendation) : Bool :=
  decide ((recSortKey a).1 < (recSortKey b).1
    ∨ ((recSortKey a).1 = (recSortKey b).1 ∧ (recSortKey a).2 ≤ (recSortKey b).2))

/-- All applicable tactical recommendations for the situation (source:
`get_tactical_recommendations`). -/
def get_tactical_recommendations (A : Numerics) (inning : ℤ) (top_bottom : Half)
    (outs : ℤ) (runners : ℤ × ℤ × ℤ) (score_diff : ℤ) (runs_per_game : ℚ) :
    List Recommendation :=
  let recs := TACTICS.filterMap (fun kt =>
    _evaluate_tactic A kt.1 kt.2 runners outs score_diff inning top_bottom runs_per_game)
  recs.mergeSort recLE

/-- Argument handed to `np.log` inside `adjust_wp_for_matchup`: the odds of the
clamped probability (`p = max(0.01, min(0.99, base_wp))`, then `p / (1 - p)`). -/
def matchupLogitInput (base_wp : ℚ) : ℚ :=
  let p := max 0.01 (min 0.99 base_wp)
  p / (1 - p)

/-- Adjust WP for batter/pitcher quality in logit space (source:
`adjust_wp_for_matchup`). -/
def adjust_wp_for_matchup (A : Numerics) (base_wp : ℚ)
    (batter_ops : Option ℚ := none) (pitcher_era : Option ℚ := none) : ℚ :=
  if batter_ops = none ∧ pitcher_era = none then base_wp
  else
    let logit0 := A.log (matchupLogitInput base_wp)
    let logit1 := match batter_ops with
      | some b => logit0 + (b - 0.750) * 0.5
      | none => logit0
    let logit2 := match pitcher_era with
      | some e => logit1 - (3.50 - e) * 0.15
      | none => logit1
    let wp := 1 / (1 + A.exp (-logit2))
    roundTo 4 (min 0.99 (max 0.01 wp))

/-- Python truthiness of an optional float argument (`None` and `0.0` are
falsy). -/
def pyTruthy (x : Option ℚ) : Bool :=
  match x with
  | none => false
  | some v => if v = 0 then false else true

/-- Echo of the input game state inside the `full_analysis` result dict. -/
structure GameStateEcho where
  inning : ℤ
  top_bottom : Half
  outs : ℤ
  runners : ℤ × ℤ × ℤ
  score_diff : ℤ
  runs_per_game : ℚ
deriving DecidableEq, Repr

/-- Result record of `full_analysis` (the display-only percentage string
`win_probability_pct` is formatting of `win_probability` and is not
modelled). -/
structure FullAnalysis where
  game_state : GameStateEcho
  win_probability : ℚ
  adjusted_wp : Option ℚ
  leverage_index : ℚ
  leverage_label : String
  tactics : List Recommendation

/-- Full analysis: WP + LI + tactics + matchup adjustment (source:
`full_analysis`).  The guard on `adjusted_wp` is the source's Python
truthiness test `if (batter_ops or pitcher_era)`. -/
def full_analysis (A : Numerics) (inning : ℤ) (top_bottom : Half) (outs : ℤ)
    (runners : ℤ × ℤ × ℤ) (score_diff : ℤ) (runs_per_game : ℚ)
    (batter_ops : Option ℚ := none) (pitcher_era : Option ℚ := none) :
    FullAnalysis :=
  let wp := calculate_wp A inning top_bottom outs runners score_diff runs_per_game
  let li := calculate_li A inning top_bottom outs runners score_diff runs_per_game
  let tactics := get_tactical_recommendations A inning top_bottom outs runners score_diff runs_per_game
  let adjusted_wp := adjust_wp_for_matchup A wp batter_ops pitcher_era
  { game_state :=
      { inning := inning, top_bottom := top_bottom, outs := outs,
        runners := runners, score_diff := score_diff, runs_per_game := runs_per_game }
    win_probability := roundTo 4 wp
    adjusted_wp :=
      if pyTruthy batter_ops || pyTruthy pitcher_era then some (roundTo 4 adjusted_wp)
      else none
    leverage_index := li
    leverage_label := li_label li
    tactics := tactics }

/-- Endgame case analysis for the bottom of inning ≥ 9, written from the
claim's words (C2): leading → exactly 0.99; tied → clamp of
`p + (1-p)*0.5` with `p = 1 - exp(-re*1.8)`; trailing by d > 0 → clamp of
P(X ≥ d) for X ~ Poisson(re*1.5), re the scaled run expectancy of the current
base-out state. -/
def endgameBottomSpec (A : Numerics) (outs : ℤ) (runners : ℤ × ℤ × ℤ)
    (score_diff : ℤ) (runs_per_game : ℚ) : ℚ :=
  let re := get_re24 runners outs runs_per_game
  if 0 < score_diff then 0.99
  else if score_diff = 0 then
    let p := 1 - A.exp (-(re * 1.8))
    min 0.99 (max 0.01 (p + (1 - p) * 0.5))
  else
    let d := -score_diff
    min 0.99 (max 0.01 (1 - poissonCdf A (d - 1) (re * 1.5)))

/-- Degenerate stand-in bundle (all routines constantly 0): used to witness
theorems whose conclusion does not depend on the values of the
transcendental routines. -/
def PZero : Numerics :=
  { exp := fun _ => 0, log := fun _ => 0, sqrt := fun _ => 0, ncdf := fun _ => 0 }

/-- Stand-in bundle for the game-start evaluation (C3).  At game start the
source computes std = sqrt(5.535) = 2.352658... (stand-in 2.353) and
norm.cdf(-0.231/2.353) = Phi(-0.0981725...) = 0.460896... (stand-in 0.4609);
both stand-ins agree with the genuine routine to 4 decimal places at the only
points where they are consulted. -/
def NGameStart : Numerics :=
  { exp := fun _ => 0
    log := fun _ => 0
    sqrt := fun x => if x = 1107/200 then 2353/1000 else 0
    ncdf := fun x => if x = -231/2353 then 4609/10000 else 0 }

/-- Stand-in bundle satisfying the interval bounds used by the amended C3
theorem: sqrt(5.535) lies in [2.35, 2.36] and Phi lies in [0.4606, 0.4612]
on [-0.0983, -0.0978] (true of the genuine routines; see the theorem). -/
def NGameStartBox : Numerics :=
  { exp := fun _ => 0
    log := fun _ => 0
    sqrt := fun _ => 47/20
    ncdf := fun x => if -983/10000 ≤ x ∧ x ≤ -978/10000 then 461/1000 else 0 }

/-- Stand-in bundle for the top-of-9th seam evaluation (C4), at
inning = 9, top, 2 outs, bases empty, runs_per_game = 100.  The source
consults sqrt(6509/900 = 7.23222...) = 2.689279... (stand-in 2.69),
norm.cdf(3040/2421 = 1.255679...) = 0.895372... (stand-in 0.8954) and
exp(-637/225 = -2.831111...) = 0.0589475... (stand-in 0.059); each stand-in
agrees with the genuine routine to about 3 decimal places at the only points
where it is consulted, and the monotonicity violation exhibited with them
(0.8954 versus 0.1509) has margin far beyond these approximation errors. -/
def NSeam : Numerics :=
  { exp := fun x => if x = -637/225 then 59/1000 else 0
    log := fun _ => 0
    sqrt := fun x => if x = 6509/900 then 269/100 else 0
    ncdf := fun x => if x = 3040/2421 then 8954/10000 else 0 }

/-- Clamping to [0.01, 0.99] never exceeds 0.99. -/
lemma clamp_le (x : ℚ) : min 0.99 (max 0.01 x) ≤ 0.99 := min_le_left _ _

/-- Clamping to [0.01, 0.99] is at least 0.01. -/
lemma le_clamp (x : ℚ) : (0.01 : ℚ) ≤ min 0.99 (max 0.01 x) :=
  le_min (by norm_num) (le_max_left _ _)

/-- Clamping to [0.01, 0.99] is monotone. -/
lemma clamp_mono {x y : ℚ} (h : x ≤ y) :
    min 0.99 (max 0.01 x) ≤ min 0.99 (max 0.01 y) :=
  min_le_min le_rfl (max_le_max le_rfl h)

/-- Every branch of `calculate_wp` returns either the literal 0.99 or a value
clamped into [0.01, 0.99]. -/
lemma wp_bounds (A : Numerics) (inning : ℤ) (top_bottom : Half) (outs : ℤ)
    (runners : ℤ × ℤ × ℤ) (score_diff : ℤ) (rpg : ℚ) :
    0.01 ≤ calculate_wp A inning top_bottom outs runners score_diff rpg ∧
    calculate_wp A inning top_bottom outs runners score_diff rpg ≤ 0.99 := by
  simp only [calculate_wp]
  split_ifs
  · norm_num
  · exact ⟨le_clamp _, clamp_le _⟩
  · exact ⟨le_clamp _, clamp_le _⟩
  · exact ⟨le_clamp _, clamp_le _⟩
  · exact ⟨le_clamp _, clamp_le _⟩
  · exact ⟨le_clamp _, clamp_le _⟩

/-- C1: for every well-formed input (inning ≥ 1, half in {top, bottom}, outs
in {0,1,2}, boolean runner flags, any integer score differential, rpg > 0),
`calculate_wp` returns a value in the closed interval [0.01, 0.99], on every
branch including the endgame overrides. -/
theorem calculate_wp_in_unit_range (A : Numerics) (inning : ℤ) (top_bottom : Half)
    (outs : ℤ) (runners : ℤ × ℤ × ℤ) (score_diff : ℤ) (rpg : ℚ)
    (hinning : 1 ≤ inning)
    (houts : outs = 0 ∨ outs = 1 ∨ outs = 2)
    (hrunners : (runners.1 = 0 ∨ runners.1 = 1) ∧ (runners.2.1 = 0 ∨ runners.2.1 = 1)
      ∧ (runners.2.2 = 0 ∨ runners.2.2 = 1))
    (hrpg : 0 < rpg) :
    0.01 ≤ calculate_wp A inning top_bottom outs runners score_diff rpg ∧
    calculate_wp A inning top_bottom outs runners score_diff rpg ≤ 0.99 :=
  wp_bounds A inning top_bottom outs runners score_diff rpg

/-- Witness for C1 at a concrete input. -/
theorem calculate_wp_in_unit_range_witness :
    0.01 ≤ calculate_wp PZero 1 Half.top 0 (0, 0, 0) 0 (9/2) ∧
    calculate_wp PZero 1 Half.top 0 (0, 0, 0) 0 (9/2) ≤ 0.99 :=
  calculate_wp_in_unit_range PZero 1 Half.top 0 (0, 0, 0) 0 (9/2)
    (by norm_num) (by norm_num) (by norm_num) (by norm_num)

/-- C6: `get_re24` satisfies the exact linear-scaling equation against the
reference environment MLB_RPG = 4.5. -/
theorem get_re24_linear_scaling (runners : ℤ × ℤ × ℤ) (outs : ℤ) (rpg : ℚ)
    (hrpg : 0 < rpg) :
    get_re24 runners outs rpg = get_re24 runners outs MLB_RPG * (rpg / MLB_RPG) := by
  simp only [get_re24, MLB_RPG]
  norm_num

/-- Witness for C6 at a concrete input (rpg = 9, bases loaded, no outs). -/
theorem get_re24_linear_scaling_witness :
    get_re24 (1, 1, 1) 0 9 = get_re24 (1, 1, 1) 0 MLB_RPG * (9 / MLB_RPG) :=
  get_re24_linear_scaling (1, 1, 1) 0 9 (by norm_num)

/-- C7: a lookup outside the 24-entry table domain (in particular any outs
value outside {0,1,2}) raises nothing and yields exactly 0 from `get_re24`. -/
theorem get_re24_out_of_domain_zero :
    (∀ (r1 r2 r3 o : ℤ) (rpg : ℚ),
        RE24_MLB (r1, r2, r3, o) = none → get_re24 (r1, r2, r3) o rpg = 0)
    ∧ (∀ r1 r2 r3 o : ℤ, ¬(o = 0 ∨ o = 1 ∨ o = 2) → RE24_MLB (r1, r2, r3, o) = none) := by
  constructor
  · intro r1 r2 r3 o rpg h
    simp [get_re24, h]
  · intro r1 r2 r3 o h
    have h0 : o ≠ 0 := by omega
    have h1 : o ≠ 1 := by omega
    have h2 : o ≠ 2 := by omega
    simp [RE24_MLB, Prod.mk.injEq, h0, h1, h2]

/-- Witness for C7 at the concrete out-of-domain key outs = 3. -/
theorem get_re24_out_of_domain_zero_witness :
    RE24_MLB (0, 0, 0, 3) = none ∧ get_re24 (0, 0, 0) 3 1 = 0 := by
  have h := get_re24_out_of_domain_zero.2 0 0 0 3 (by norm_num)
  exact ⟨h, get_re24_out_of_domain_zero.1 0 0 0 3 1 h⟩

/-- C8: on every base-out state with boolean runner flags and outs in
{0,1,2}, the walk outcome puts the batter on first, advances the runner on
second exactly when first was occupied, advances the runner on third exactly
when first and second were both occupied (i.e. runners move only when
forced), leaves outs unchanged, and scores one run exactly when the bases
were loaded. -/
theorem apply_outcome_walk_forced (r1 r2 r3 outs : ℤ)
    (h1 : r1 = 0 ∨ r1 = 1) (h2 : r2 = 0 ∨ r2 = 1) (h3 : r3 = 0 ∨ r3 = 1)
    (ho : outs = 0 ∨ outs = 1 ∨ outs = 2) :
    _apply_outcome (r1, r2, r3) outs Outcome.walk =
      ((1, (if r1 = 1 then 1 else r2), (if r1 = 1 ∧ r2 = 1 then 1 else r3)),
        outs,
        (if r1 = 1 ∧ r2 = 1 ∧ r3 = 1 then 1 else 0)) := by
  rcases h1 with rfl | rfl <;> rcases h2 with rfl | rfl <;> rcases h3 with rfl | rfl <;>
    rcases ho with rfl | rfl | rfl <;> decide

/-- Witness for C8 at a concrete input: runners on first and third, one out;
the walk forces first to second but leaves third in place without scoring. -/
theorem apply_outcome_walk_forced_witness :
    _apply_outcome (1, 0, 1) 1 Outcome.walk = ((1, 1, 1), 1, 0) := by
  have h := apply_outcome_walk_forced 1 0 1 1 (Or.inr rfl) (Or.inl rfl) (Or.inr rfl)
    (Or.inr (Or.inl rfl))
  simpa using h

/-- Round-half-even never rounds below an integer lower bound of its
argument. -/
lemma le_roundHalfEven {a : ℤ} {q : ℚ} (ha : (a : ℚ) ≤ q) : a ≤ roundHalfEven q := by
  have haf : a ≤ ⌊q⌋ := Int.le_floor.mpr ha
  simp only [roundHalfEven]
  split_ifs <;> omega

/-- Round-half-even never rounds above an integer upper bound of its
argument. -/
lemma roundHalfEven_le {b : ℤ} {q : ℚ} (hb : q ≤ (b : ℚ)) : roundHalfEven q ≤ b := by
  have hfb : ⌊q⌋ ≤ b := by
    have h := Int.floor_le_floor hb
    simpa using h
  have key : (1 : ℚ) / 2 ≤ q - ⌊q⌋ → ⌊q⌋ + 1 ≤ b := by
    intro hr
    rcases eq_or_lt_of_le hfb with he | hl
    · exfalso
      rw [he] at hr
      linarith
    · omega
  simp only [roundHalfEven]
  split_ifs with hA hB
  · exact hfb
  · exact key (by linarith)
  · exact hfb
  · exact key (by linarith)

/-- Python's `round(x, 4)` of a value clamped into [0.01, 0.99] stays in
[0.01, 0.99]. -/
lemma roundTo4_clamp_bounds (x : ℚ) :
    0.01 ≤ roundTo 4 (min 0.99 (max 0.01 x)) ∧
    roundTo 4 (min 0.99 (max 0.01 x)) ≤ 0.99 := by
  have h1 : (0.01 : ℚ) ≤ min 0.99 (max 0.01 x) := le_clamp x
  have h2 : min 0.99 (max 0.01 x) ≤ 0.99 := clamp_le x
  have hlo : ((100 : ℤ) : ℚ) ≤ min 0.99 (max 0.01 x) * 10 ^ (4 : ℕ) := by
    push_cast
    nlinarith
  have hhi : min 0.99 (max 0.01 x) * 10 ^ (4 : ℕ) ≤ ((9900 : ℤ) : ℚ) := by
    push_cast
    nlinarith
  have hl' : ((100 : ℤ) : ℚ) ≤ (roundHalfEven (min 0.99 (max 0.01 x) * 10 ^ (4 : ℕ)) : ℚ) :=
    Int.cast_le.mpr (le_roundHalfEven hlo)
  have hh' : ((roundHalfEven (min 0.99 (max 0.01 x) * 10 ^ (4 : ℕ)) : ℤ) : ℚ) ≤ ((9900 : ℤ) : ℚ) :=
    Int.cast_le.mpr (roundHalfEven_le hhi)
  simp only [roundTo]
  constructor
  · rw [le_div_iff (by norm_num : (0 : ℚ) < 10 ^ (4 : ℕ))]
    push_cast at hl' ⊢
    nlinarith
  · rw [div_le_iff (by norm_num : (0 : ℚ) < 10 ^ (4 : ℕ))]
    push_cast at hh' ⊢
    nlinarith

/-- C10: when at least one quality signal is supplied,
`adjust_wp_for_matchup` clamps its base probability into [0.01, 0.99] before
the log-odds transform, so the argument handed to `np.log` is strictly
positive for every rational base probability (including values ≤ 0 or ≥ 1),
and the returned value lies in [0.01, 0.99]. -/
theorem adjust_wp_matchup_safe (A : Numerics) (base_wp : ℚ)
    (batter_ops pitcher_era : Option ℚ)
    (h : ¬(batter_ops = none ∧ pitcher_era = none)) :
    0 < matchupLogitInput base_wp ∧
    0.01 ≤ adjust_wp_for_matchup A base_wp batter_ops pitcher_era ∧
    adjust_wp_for_matchup A base_wp batter_ops pitcher_era ≤ 0.99 := by
  refine ⟨?_, ?_⟩
  · simp only [matchupLogitInput]
    have hp1 : (0.01 : ℚ) ≤ max 0.01 (min 0.99 base_wp) := le_max_left _ _
    have hp2 : max 0.01 (min 0.99 base_wp) ≤ 0.99 :=
      max_le (by norm_num) (min_le_left _ _)
    apply div_pos (by linarith) (by linarith)
  · simp only [adjust_wp_for_matchup]
    rw [if_neg h]
    exact roundTo4_clamp_bounds _

/-- Witness for C10 at a concrete input: a supplied batter OPS of 1.0 and an
out-of-range base probability of -3. -/
theorem adjust_wp_matchup_safe_witness :
    0 < matchupLogitInput (-3) ∧
    0.01 ≤ adjust_wp_for_matchup PZero (-3) (some 1) none ∧
    adjust_wp_for_matchup PZero (-3) (some 1) none ≤ 0.99 :=
  adjust_wp_matchup_safe PZero (-3) (some 1) none (by simp)

/-- Amended C5: in the record returned by `full_analysis`, `adjusted_wp` is
non-null exactly when at least one quality signal is supplied with a nonzero
value — the source guards the field with Python truthiness
(`if (batter_ops or pitcher_era)`), under which a supplied 0.0 counts as
absent. -/
theorem full_analysis_adjusted_iff_truthy (A : Numerics) (inning : ℤ)
    (top_bottom : Half) (outs : ℤ) (runners : ℤ × ℤ × ℤ) (score_diff : ℤ)
    (rpg : ℚ) (batter_ops pitcher_era : Option ℚ) :
    (full_analysis A inning top_bottom outs runners score_diff rpg
        batter_ops pitcher_era).adjusted_wp ≠ none
    ↔ (pyTruthy batter_ops || pyTruthy pitcher_era) = true := by
  simp only [full_analysis]
  by_cases h : (pyTruthy batter_ops || pyTruthy pitcher_era) = true
  · simp [h]
  · simp only [Bool.not_eq_true] at h
    simp [h]

/-- Counterexample to C5 as stated: with batter OPS supplied as 0.0 (and no
pitcher signal), a quality signal is supplied yet `adjusted_wp` is null,
because the source's truthiness test treats 0.0 like None. -/
theorem full_analysis_adjusted_none_for_zero_ops :
    (some (0 : ℚ) ≠ none) ∧
    (full_analysis PZero 1 Half.top 0 (0, 0, 0) 0 (9/2) (some 0) none).adjusted_wp
      = none := by
  constructor
  · simp
  · simp [full_analysis, pyTruthy]

/-- C2: for the bottom half of inning ≥ 9, `calculate_wp` coincides with the
endgame case analysis written from the claim (0.99 when leading; the
score-at-least-once/extras formula when tied; the Poisson tail when
trailing). -/
theorem calculate_wp_bottom9_endgame (A : Numerics) (inning outs : ℤ)
    (runners : ℤ × ℤ × ℤ) (score_diff : ℤ) (rpg : ℚ) (h9 : 9 ≤ inning) :
    calculate_wp A inning Half.bottom outs runners score_diff rpg =
      endgameBottomSpec A outs runners score_diff rpg := by
  simp only [calculate_wp, endgameBottomSpec]
  rw [if_pos ⟨h9, trivial⟩]
  rcases lt_trichotomy score_diff 0 with hd | hd | hd
  · rw [if_neg (by omega), if_neg (by omega), if_neg (by omega), if_neg (by omega)]
    rw [abs_of_neg hd]
  · subst hd
    norm_num
  · rw [if_pos hd, if_pos hd]

/-- Witness for C2 at a concrete input (bottom 9th, home leading by 1). -/
theorem calculate_wp_bottom9_endgame_witness :
    calculate_wp PZero 9 Half.bottom 2 (1, 1, 1) 1 (9/2) =
      endgameBottomSpec PZero 2 (1, 1, 1) 1 (9/2) :=
  calculate_wp_bottom9_endgame PZero 9 2 (1, 1, 1) 1 (9/2) (by norm_num)

/-- Counterexample to C3 as stated: at the game-start state the source
computes mean -0.231, std sqrt(5.535) and returns
norm.cdf(-0.231/sqrt(5.535)) = Phi(-0.098172...) = 0.46090 < 0.48, outside
the claimed interval [0.48, 0.52].  `NGameStart` substitutes the two
transcendental values consulted (sqrt(5.535) = 2.352658... as 2.353 and
Phi(-231/2353) = 0.460896... as 0.4609), each correct to 4 decimal places. -/
theorem game_start_wp_below_048 :
    calculate_wp NGameStart 1 Half.top 0 (0, 0, 0) 0 (9/2) = 4609/10000 ∧
    calculate_wp NGameStart 1 Half.top 0 (0, 0, 0) 0 (9/2) < 48/100 := by
  have h1 : RE24_MLB 0 = some 0.481 := rfl
  norm_num [calculate_wp, get_re24, MLB_RPG, NGameStart, h1]

/-- Normal-branch shape of `calculate_wp` at the game-start state: the
clamped normal CDF of mean/std with mean = -0.231 and
std = sqrt(5.535). -/
lemma wp_game_start_eq (A : Numerics) :
    calculate_wp A 1 Half.top 0 (0, 0, 0) 0 (9/2) =
      min 0.99 (max 0.01 (A.ncdf ((-(231/1000)) / max (A.sqrt (1107/200)) (1/10)))) := by
  have h1 : RE24_MLB 0 = some 0.481 := rfl
  norm_num [calculate_wp, get_re24, MLB_RPG, h1]

/-- Amended C3: at the game-start state the value lies within 0.04 of 0.5
(indeed in [0.4606, 0.4612]), not within 0.02.  The two hypotheses are true
facts about the genuine routines: 2.35 ≤ sqrt(5.535) = 2.352658... ≤ 2.36,
and for x in [-0.0983, -0.0978] the standard normal CDF satisfies
0.46078 ≤ Phi(-0.0983) ≤ Phi(x) ≤ Phi(-0.0978) ≤ 0.46118, hence
0.4606 ≤ Phi(x) ≤ 0.4612. -/
theorem game_start_wp_within_004 (A : Numerics)
    (hs1 : 47/20 ≤ A.sqrt (1107/200)) (hs2 : A.sqrt (1107/200) ≤ 59/25)
    (hn : ∀ x : ℚ, -983/10000 ≤ x → x ≤ -978/10000 →
      2303/5000 ≤ A.ncdf x ∧ A.ncdf x ≤ 2306/5000) :
    23/50 ≤ calculate_wp A 1 Half.top 0 (0, 0, 0) 0 (9/2) ∧
    calculate_wp A 1 Half.top 0 (0, 0, 0) 0 (9/2) ≤ 27/50 := by
  have hs0 : (1 : ℚ)/10 ≤ A.sqrt (1107/200) := le_trans (by norm_num) hs1
  have hspos : (0 : ℚ) < A.sqrt (1107/200) := lt_of_lt_of_le (by norm_num) hs1
  have hmax : max (A.sqrt (1107/200)) (1/10) = A.sqrt (1107/200) := max_eq_left hs0
  have hrlo : -983/10000 ≤ (-(231/1000)) / A.sqrt (1107/200) := by
    rw [le_div_iff hspos]
    nlinarith
  have hrhi : (-(231/1000)) / A.sqrt (1107/200) ≤ -978/10000 := by
    rw [div_le_iff hspos]
    nlinarith
  obtain ⟨hv1, hv2⟩ := hn _ hrlo hrhi
  rw [wp_game_start_eq, hmax]
  rw [max_eq_right (le_trans (by norm_num) hv1), min_eq_right (le_trans hv2 (by norm_num))]
  constructor
  · linarith
  · linarith

/-- Witness for the amended C3 at the concrete bundle `NGameStartBox`. -/
theorem game_start_wp_within_004_witness :
    23/50 ≤ calculate_wp NGameStartBox 1 Half.top 0 (0, 0, 0) 0 (9/2) ∧
    calculate_wp NGameStartBox 1 Half.top 0 (0, 0, 0) 0 (9/2) ≤ 27/50 :=
  game_start_wp_within_004 NGameStartBox
    (by norm_num [NGameStartBox])
    (by norm_num [NGameStartBox])
    (by
      intro x hx1 hx2
      simp only [NGameStartBox]
      rw [if_pos ⟨hx1, hx2⟩]
      norm_num)

/-- Counterexample to C4 as stated: with inning = 9, top half, 2 outs, bases
empty and runs_per_game = 100 (the engine contract bounds rpg only by
positivity), the score differential 0 falls in the normal-approximation
branch while the differential 1 falls in the top-of-9th Poisson branch, and
the win probability DROPS from 0.8954 to 0.1509 as the differential rises
from 0 to 1.  `NSeam` substitutes the three transcendental values consulted
(sqrt(6509/900 = 7.23222) = 2.689279... as 2.69,
Phi(3040/2421 = 1.255679) = 0.895372... as 0.8954, and
exp(-637/225 = -2.831111) = 0.0589475... as 0.059); each stand-in is correct
to about 3 decimal places, and the 0.74 gap exhibited dwarfs those
approximation errors. -/
theorem wp_not_monotone_across_top9_seam :
    calculate_wp NSeam 9 Half.top 2 (0, 0, 0) 1 100 <
    calculate_wp NSeam 9 Half.top 2 (0, 0, 0) 0 100 := by
  have h1 : RE24_MLB (0, 0, 0, 2) = some 0.098 := rfl
  have htb : (Half.top = Half.bottom) = False :=
    eq_false (by decide : ¬ Half.top = Half.bottom)
  norm_num [calculate_wp, get_re24, MLB_RPG, NSeam, h1, htb, poissonCdf,
    Finset.sum_range_succ, Finset.sum_range_zero, Nat.factorial]

/-- The Poisson CDF model is nonnegative when the stand-in exponential is. -/
lemma poissonCdf_nonneg (A : Numerics) (hE0 : ∀ x : ℚ, 0 ≤ A.exp x)
    (k : ℤ) (lam : ℚ) (hlam : 0 ≤ lam) : 0 ≤ poissonCdf A k lam := by
  simp only [poissonCdf]
  split_ifs
  · exact le_refl 0
  · exact mul_nonneg (hE0 _) (Finset.sum_nonneg fun i _ =>
      div_nonneg (pow_nonneg hlam i) (by positivity))

/-- The Poisson CDF model is nondecreasing in its cutoff. -/
lemma poissonCdf_mono_k (A : Numerics) (hE0 : ∀ x : ℚ, 0 ≤ A.exp x)
    {k1 k2 : ℤ} (hk : k1 ≤ k2) (lam : ℚ) (hlam : 0 ≤ lam) :
    poissonCdf A k1 lam ≤ poissonCdf A k2 lam := by
  by_cases h1 : k1 < 0
  · have : poissonCdf A k1 lam = 0 := by simp [poissonCdf, h1]
    rw [this]
    exact poissonCdf_nonneg A hE0 k2 lam hlam
  · have h2 : ¬ k2 < 0 := by omega
    simp only [poissonCdf, if_neg h1, if_neg h2]
    apply mul_le_mul_of_nonneg_left ?_ (hE0 _)
    apply Finset.sum_le_sum_of_subset_of_nonneg
    · exact Finset.range_subset.mpr (by omega)
    · intro i _ _
      exact div_nonneg (pow_nonneg hlam i) (by positivity)

/-- One step of an if-chain of optional table entries preserves a
nonnegative default lookup. -/
lemma getD_ite_nonneg {c : Prop} [Decidable c] {a b : Option ℚ}
    (ha : 0 ≤ a.getD 0) (hb : 0 ≤ b.getD 0) : 0 ≤ (if c then a else b).getD 0 := by
  split_ifs <;> assumption

/-- The base of the run-expectancy table is nonnegative (every table entry
is, and the out-of-domain default is 0). -/
lemma re24_base_nonneg (key : ℤ × ℤ × ℤ × ℤ) : 0 ≤ (RE24_MLB key).getD 0 := by
  unfold RE24_MLB
  refine getD_ite_nonneg (by norm_num) ?_
  refine getD_ite_nonneg (by norm_num) ?_
  refine getD_ite_nonneg (by norm_num) ?_
  refine getD_ite_nonneg (by norm_num) ?_
  refine getD_ite_nonneg (by norm_num) ?_
  refine getD_ite_nonneg (by norm_num) ?_
  refine getD_ite_nonneg (by norm_num) ?_
  refine getD_ite_nonneg (by norm_num) ?_
  refine getD_ite_nonneg (by norm_num) ?_
  refine getD_ite_nonneg (by norm_num) ?_
  refine getD_ite_nonneg (by norm_num) ?_
  refine getD_ite_nonneg (by norm_num) ?_
  refine getD_ite_nonneg (by norm_num) ?_
  refine getD_ite_nonneg (by norm_num) ?_
  refine getD_ite_nonneg (by norm_num) ?_
  refine getD_ite_nonneg (by norm_num) ?_
  refine getD_ite_nonneg (by norm_num) ?_
  refine getD_ite_nonneg (by norm_num) ?_
  refine getD_ite_nonneg (by norm_num) ?_
  refine getD_ite_nonneg (by norm_num) ?_
  refine getD_ite_nonneg (by norm_num) ?_
  refine getD_ite_nonneg (by norm_num) ?_
  refine getD_ite_nonneg (by norm_num) ?_
  refine getD_ite_nonneg (by norm_num) ?_
  norm_num

/-- Scaled run expectancy is nonnegative in a nonnegative scoring
environment. -/
lemma get_re24_nonneg (runners : ℤ × ℤ × ℤ) (outs : ℤ) (rpg : ℚ)
    (hrpg : 0 ≤ rpg) : 0 ≤ get_re24 runners outs rpg := by
  simp only [get_re24]
  apply mul_nonneg (re24_base_nonneg _)
  rw [MLB_RPG]
  positivity

/-- Dividing by the std floored at 0.1 preserves order of numerators. -/
lemma div_le_div_max (a b c : ℚ) (hab : a ≤ b) :
    a / max c 0.1 ≤ b / max c 0.1 := by
  have h : (0 : ℚ) < max c 0.1 := lt_of_lt_of_le (by norm_num) (le_max_right _ _)
  exact (div_le_div_right h).mpr hab

/-- Monotonicity of `calculate_wp` in the score differential on the
normal-approximation branch (taken whenever neither endgame guard fires). -/
lemma wp_normal_mono (A : Numerics) (hnm : ∀ x y : ℚ, x ≤ y → A.ncdf x ≤ A.ncdf y)
    (inning : ℤ) (top_bottom : Half) (outs : ℤ) (runners : ℤ × ℤ × ℤ) (rpg : ℚ)
    {d1 d2 : ℤ} (hd : d1 ≤ d2)
    (g1 : ¬(9 ≤ inning ∧ top_bottom = Half.bottom))
    (g2 : ¬(9 ≤ inning ∧ top_bottom = Half.top ∧ 0 < d1))
    (g3 : ¬(9 ≤ inning ∧ top_bottom = Half.top ∧ 0 < d2)) :
    calculate_wp A inning top_bottom outs runners d1 rpg ≤
    calculate_wp A inning top_bottom outs runners d2 rpg := by
  rw [calculate_wp, calculate_wp]
  rw [if_neg g1, if_neg g2, if_neg g1, if_neg g3]
  apply clamp_mono
  apply hnm
  apply div_le_div_max
  have hc : (d1 : ℚ) ≤ (d2 : ℚ) := Int.cast_le.mpr hd
  linarith

/-- The Poisson CDF model at cutoff 0 is exactly the exponential factor. -/
lemma poissonCdf_zero (A : Numerics) (lam : ℚ) : poissonCdf A 0 lam = A.exp (-lam) := by
  norm_num [poissonCdf, Int.toNat_zero, Finset.sum_range_one]

/-- Monotonicity of `calculate_wp` in the score differential for the bottom
of inning ≥ 9 (the walk-off override region): P(X ≥ n) falls as the needed
run count n rises, the tied-game formula dominates every deficit formula
(exp(-1.8 re)/2 ≤ exp(-1.5 re) ≤ P(X ≤ n-1) tail complement comparison),
and the leading case is the maximal 0.99. -/
lemma wp_bottom9_mono (A : Numerics) (hE0 : ∀ x : ℚ, 0 ≤ A.exp x)
    (hEm : ∀ x y : ℚ, x ≤ y → A.exp x ≤ A.exp y)
    (inning outs : ℤ) (runners : ℤ × ℤ × ℤ) (rpg : ℚ)
    (h9 : 9 ≤ inning) (hrpg : 0 ≤ rpg) {d1 d2 : ℤ} (hd : d1 ≤ d2) :
    calculate_wp A inning Half.bottom outs runners d1 rpg ≤
    calculate_wp A inning Half.bottom outs runners d2 rpg := by
  have hre0 : 0 ≤ get_re24 runners outs rpg := get_re24_nonneg _ _ _ hrpg
  by_cases h2p : 0 < d2
  · have hR : calculate_wp A inning Half.bottom outs runners d2 rpg = 0.99 := by
      rw [calculate_wp, if_pos ⟨h9, rfl⟩, if_pos h2p]
    rw [hR]
    exact (wp_bounds A inning Half.bottom outs runners d1 rpg).2
  · by_cases h20 : d2 = 0
    · subst h20
      by_cases h10 : d1 = 0
      · subst h10
        exact le_rfl
      · have h1n : d1 < 0 := by omega
        have hL : calculate_wp A inning Half.bottom outs runners d1 rpg
            = min 0.99 (max 0.01
                (1 - poissonCdf A (|d1| - 1) (get_re24 runners outs rpg * 1.5))) := by
          rw [calculate_wp, if_pos ⟨h9, rfl⟩, if_neg (by omega), if_neg h10]
        have hR : calculate_wp A inning Half.bottom outs runners 0 rpg
            = min 0.99 (max 0.01
                (1 - A.exp (-(get_re24 runners outs rpg * 1.8)) +
                  (1 - (1 - A.exp (-(get_re24 runners outs rpg * 1.8)))) * 0.50)) := by
          rw [calculate_wp, if_pos ⟨h9, rfl⟩, if_neg (by omega), if_pos rfl]
        rw [hL, hR]
        apply clamp_mono
        have hmono : A.exp (-(get_re24 runners outs rpg * 1.8)) ≤
            A.exp (-(get_re24 runners outs rpg * 1.5)) := hEm _ _ (by linarith)
        have hk : poissonCdf A 0 (get_re24 runners outs rpg * 1.5) ≤
            poissonCdf A (|d1| - 1) (get_re24 runners outs rpg * 1.5) :=
          poissonCdf_mono_k A hE0 (by rw [abs_of_neg h1n]; omega) _ (by linarith)
        rw [poissonCdf_zero] at hk
        have h0 : 0 ≤ A.exp (-(get_re24 runners outs rpg * 1.8)) := hE0 _
        linarith
    · have h2n : d2 < 0 := by omega
      have h1n : d1 < 0 := by omega
      have hL : calculate_wp A inning Half.bottom outs runners d1 rpg
          = min 0.99 (max 0.01
              (1 - poissonCdf A (|d1| - 1) (get_re24 runners outs rpg * 1.5))) := by
        rw [calculate_wp, if_pos ⟨h9, rfl⟩, if_neg (by omega), if_neg (by omega)]
      have hR : calculate_wp A inning Half.bottom outs runners d2 rpg
          = min 0.99 (max 0.01
              (1 - poissonCdf A (|d2| - 1) (get_re24 runners outs rpg * 1.5))) := by
        rw [calculate_wp, if_pos ⟨h9, rfl⟩, if_neg (by omega), if_neg (by omega)]
      rw [hL, hR]
      apply clamp_mono
      have hk : poissonCdf A (|d2| - 1) (get_re24 runners outs rpg * 1.5) ≤
          poissonCdf A (|d1| - 1) (get_re24 runners outs rpg * 1.5) :=
        poissonCdf_mono_k A hE0 (by rw [abs_of_neg h2n, abs_of_neg h1n]; omega) _ (by linarith)
      linarith

/-- Monotonicity of `calculate_wp` in the score differential inside the
top-of-inning-≥9 Poisson branch (both differentials at least 1): the branch
value is 0.55·P(X ≤ d) + 0.45·P(X ≤ d-1), nondecreasing in d. -/
lemma wp_top9_pos_mono (A : Numerics) (hE0 : ∀ x : ℚ, 0 ≤ A.exp x)
    (inning outs : ℤ) (runners : ℤ × ℤ × ℤ) (rpg : ℚ)
    (h9 : 9 ≤ inning) (hrpg : 0 ≤ rpg) {d1 d2 : ℤ} (h1p : 1 ≤ d1) (hd : d1 ≤ d2) :
    calculate_wp A inning Half.top outs runners d1 rpg ≤
    calculate_wp A inning Half.top outs runners d2 rpg := by
  have hre0 : 0 ≤ get_re24 runners outs rpg := get_re24_nonneg _ _ _ hrpg
  have hL : calculate_wp A inning Half.top outs runners d1 rpg
      = min 0.99 (max 0.01
          (1 - ((1 - poissonCdf A d1 (get_re24 runners outs rpg * 1.3)) +
            ((1 - poissonCdf A (d1 - 1) (get_re24 runners outs rpg * 1.3)) -
              (1 - poissonCdf A d1 (get_re24 runners outs rpg * 1.3))) * 0.45))) := by
    rw [calculate_wp, if_neg (fun hc => Half.noConfusion hc.2), if_pos ⟨h9, rfl, by omega⟩]
  have hR : calculate_wp A inning Half.top outs runners d2 rpg
      = min 0.99 (max 0.01
          (1 - ((1 - poissonCdf A d2 (get_re24 runners outs rpg * 1.3)) +
            ((1 - poissonCdf A (d2 - 1) (get_re24 runners outs rpg * 1.3)) -
              (1 - poissonCdf A d2 (get_re24 runners outs rpg * 1.3))) * 0.45))) := by
    rw [calculate_wp, if_neg (fun hc => Half.noConfusion hc.2), if_pos ⟨h9, rfl, by omega⟩]
  rw [hL, hR]
  apply clamp_mono
  have hc2 : poissonCdf A d1 (get_re24 runners outs rpg * 1.3) ≤
      poissonCdf A d2 (get_re24 runners outs rpg * 1.3) :=
    poissonCdf_mono_k A hE0 hd _ (by linarith)
  have hc1 : poissonCdf A (d1 - 1) (get_re24 runners outs rpg * 1.3) ≤
      poissonCdf A (d2 - 1) (get_re24 runners outs rpg * 1.3) :=
    poissonCdf_mono_k A hE0 (by omega) _ (by linarith)
  linarith

/-- Amended C4: `calculate_wp` is non-decreasing in the score differential
whenever the half is bottom, or the inning is at most 8, or (in the top of
inning ≥ 9) both differentials lie on the same side of the seam between the
normal-approximation branch (differential ≤ 0) and the Poisson branch
(differential ≥ 1).  Across that seam monotonicity fails (see the
counterexample).  The three hypotheses on the bundle are qualitative facts
true of the genuine routines: the normal CDF is monotone, and exp is
nonnegative and monotone. -/
theorem wp_monotone_in_score_diff_amended (A : Numerics)
    (hnm : ∀ x y : ℚ, x ≤ y → A.ncdf x ≤ A.ncdf y)
    (hE0 : ∀ x : ℚ, 0 ≤ A.exp x)
    (hEm : ∀ x y : ℚ, x ≤ y → A.exp x ≤ A.exp y)
    (inning : ℤ) (top_bottom : Half) (outs : ℤ) (runners : ℤ × ℤ × ℤ) (rpg : ℚ)
    (hrpg : 0 < rpg) {d1 d2 : ℤ} (hd : d1 ≤ d2)
    (hreg : top_bottom = Half.bottom ∨ inning ≤ 8 ∨
      (top_bottom = Half.top ∧ (d2 ≤ 0 ∨ 1 ≤ d1))) :
    calculate_wp A inning top_bottom outs runners d1 rpg ≤
    calculate_wp A inning top_bottom outs runners d2 rpg := by
  rcases hreg with rfl | h8 | ⟨rfl, hside⟩
  · by_cases h9 : 9 ≤ inning
    · exact wp_bottom9_mono A hE0 hEm inning outs runners rpg h9 (le_of_lt hrpg) hd
    · exact wp_normal_mono A hnm inning Half.bottom outs runners rpg hd
        (fun hc => h9 hc.1) (fun hc => h9 hc.1) (fun hc => h9 hc.1)
  · exact wp_normal_mono A hnm inning top_bottom outs runners rpg hd
      (fun hc => absurd hc.1 (by omega)) (fun hc => absurd hc.1 (by omega))
      (fun hc => absurd hc.1 (by omega))
  · rcases hside with h20 | h11
    · exact wp_normal_mono A hnm inning Half.top outs runners rpg hd
        (fun hc => Half.noConfusion hc.2) (fun hc => absurd hc.2.2 (by omega))
        (fun hc => absurd hc.2.2 (by omega))
    · by_cases h9 : 9 ≤ inning
      · exact wp_top9_pos_mono A hE0 inning outs runners rpg h9 (le_of_lt hrpg) h11 hd
      · exact wp_normal_mono A hnm inning Half.top outs runners rpg hd
          (fun hc => h9 hc.1) (fun hc => h9 hc.1) (fun hc => h9 hc.1)

/-- Witness for the amended C4 at a concrete input (inning 5, top half,
differentials 0 and 1, with the all-zero bundle, whose cdf and exp satisfy
the monotonicity and nonnegativity hypotheses trivially). -/
theorem wp_monotone_in_score_diff_amended_witness :
    calculate_wp PZero 5 Half.top 0 (0, 0, 0) 0 (9/2) ≤
    calculate_wp PZero 5 Half.top 0 (0, 0, 0) 1 (9/2) :=
  wp_monotone_in_score_diff_amended PZero
    (fun _ _ _ => le_refl 0) (fun _ => le_refl 0) (fun _ _ _ => le_refl 0)
    5 Half.top 0 (0, 0, 0) (9/2) (by norm_num) (by omega)
    (Or.inr (Or.inl (by omega)))

/-- Every record produced by `_evaluate_tactic` carries the display name of
the tactic definition it was evaluated for (every branch of the source
builds its dict with `tactic["name"]`). -/
lemma eval_tactic_name (A : Numerics) (key : TacticKey) (t : TacticDef)
    (runners : ℤ × ℤ × ℤ) (outs score_diff inning : ℤ) (tb : Half) (rpg : ℚ)
    (r : Recommendation)
    (h : _evaluate_tactic A key t runners outs score_diff inning tb rpg = some r) :
    r.tactic = t.name := by
  cases key <;>
    (simp only [_evaluate_tactic] at h
     split_ifs at h <;>
       first
         | exact Option.noConfusion h
         | (obtain rfl := Option.some_inj.mp h; rfl))

/-- C9: the recommendation list never contains an entry named
"Steal 2nd Base" when no runner occupies first base, and never contains an
entry named "Sacrifice Bunt" when there are two outs: the steal requires a
runner on first and the bunt is limited to at most one out, so the
corresponding evaluations return nothing. -/
theorem recommendations_applicability (A : Numerics) (inning : ℤ) (tb : Half)
    (outs : ℤ) (r1 r2 r3 : ℤ) (score_diff : ℤ) (rpg : ℚ) :
    (r1 = 0 → ("Steal 2nd Base") ∉
      (get_tactical_recommendations A inning tb outs (r1, r2, r3) score_diff rpg).map
        Recommendation.tactic)
    ∧ (outs = 2 → ("Sacrifice Bunt") ∉
      (get_tactical_recommendations A inning tb outs (r1, r2, r3) score_diff rpg).map
        Recommendation.tactic) := by
  constructor
  · intro h0 hmem
    subst h0
    obtain ⟨r, hr, hname⟩ := List.mem_map.mp hmem
    rw [get_tactical_recommendations] at hr
    have hr' := List.mem_mergeSort.mp hr
    obtain ⟨kt, hkt, heval⟩ := List.mem_filterMap.mp hr'
    have htac := eval_tactic_name A kt.1 kt.2 _ _ _ _ _ _ _ heval
    rw [hname] at htac
    simp only [TACTICS, List.mem_cons, List.not_mem_nil, or_false] at hkt
    rcases hkt with rfl | rfl | rfl | rfl | rfl | rfl | rfl | rfl
    · exact absurd htac.symm (by decide)
    · simp [_evaluate_tactic] at heval
    · exact absurd htac.symm (by decide)
    · exact absurd htac.symm (by decide)
    · exact absurd htac.symm (by decide)
    · exact absurd htac.symm (by decide)
    · exact absurd htac.symm (by decide)
    · exact absurd htac.symm (by decide)
  · intro h0 hmem
    subst h0
    obtain ⟨r, hr, hname⟩ := List.mem_map.mp hmem
    rw [get_tactical_recommendations] at hr
    have hr' := List.mem_mergeSort.mp hr
    obtain ⟨kt, hkt, heval⟩ := List.mem_filterMap.mp hr'
    have htac := eval_tactic_name A kt.1 kt.2 _ _ _ _ _ _ _ heval
    rw [hname] at htac
    simp only [TACTICS, List.mem_cons, List.not_mem_nil, or_false] at hkt
    rcases hkt with rfl | rfl | rfl | rfl | rfl | rfl | rfl | rfl
    · simp [_evaluate_tactic] at heval
    · exact absurd htac.symm (by decide)
    · exact absurd htac.symm (by decide)
    · exact absurd htac.symm (by decide)
    · exact absurd htac.symm (by decide)
    · exact absurd htac.symm (by decide)
    · exact absurd htac.symm (by decide)
    · exact absurd htac.symm (by decide)

/-- Witness for C9 at a concrete input (bases empty, two outs). -/
theorem recommendations_applicability_witness :
    ("Steal 2nd Base") ∉
      (get_tactical_recommendations PZero 1 Half.top 2 (0, 0, 0) 0 (9/2)).map
        Recommendation.tactic ∧
    ("Sacrifice Bunt") ∉
      (get_tactical_recommendations PZero 1 Half.top 2 (0, 0, 0) 0 (9/2)).map
        Recommendation.tactic :=
  ⟨(recommendations_applicability PZero 1 Half.top 2 0 0 0 0 (9/2)).1 rfl,
   (recommendations_applicability PZero 1 Half.top 2 0 0 0 0 (9/2)).2 rfl⟩
